import Mathlib

set_option maxRecDepth 100000

/-!
# Verification of the Bell103 AFSK modem core (src/afsk.cpp)

Shallow embedding of the sample-synchronous TX modulator, RX decoder,
bounded FIFO queues and the serial-bridge flow-control / escape-sequence
logic of `src/afsk.cpp`, together with theorems settling the frozen claims
about them.

Machine integers are modelled as `Nat`; the only fields on which the C
`uint8_t` wrap-around is reachable along the modelled paths are the RX
shift register `rx.stream` (kept reduced `% 256`) and `rx.data`
(`data >> 1 | 0x80` stays below 256).  Counters (`clk`, `bits`, `bitsum`)
are reset by the state machines before they can reach 256 for the bit
periods in use (`fulBit = F_SAMPLE / baud ≤ 255`).
-/

namespace Bell103

/-- `ON` as used for the `active`/`carrier` flags. -/
def ON : Nat := 1

/-- `OFF` as used for the `active`/`carrier` flags. -/
def OFF : Nat := 0

/-- The MARK symbol (binary 1, high tone). -/
def MARK : Nat := 1

/-- The SPACE symbol (binary 0, low tone). -/
def SPACE : Nat := 0

/-! ## Bounded ring buffer

Modelled from the spec: the `FIFO` class is declared in `afsk.h`, which is
not part of the sources; §3/§4.4 of the spec describe it as a
fixed-capacity (2^N) single-producer/single-consumer byte queue whose
`in()` reports failure and leaves the contents unchanged when the buffer
is full, and whose `out()` removes the oldest byte (callers check
`empty()` first; `out()` on an empty buffer has no contract).  The queue
contents are represented as the list of stored bytes, oldest first. -/
structure FIFO where
  size : Nat
  buf : List Nat
  deriving Repr, DecidableEq

/-- Capacity of a FIFO: `2 ^ size` (spec §3: "capacity = 2^N"). -/
def FIFO.cap (f : FIFO) : Nat := 2 ^ f.size

/-- `FIFO::len()`: current number of stored bytes. -/
def FIFO.len (f : FIFO) : Nat := f.buf.length

/-- `FIFO::empty()`. -/
def FIFO.empty (f : FIFO) : Bool := f.buf.isEmpty

/-- `FIFO::in(byte) -> bool`: enqueue, failing (and leaving the buffer
unchanged) when full. -/
def FIFO.inb (f : FIFO) (b : Nat) : Bool × FIFO :=
  if f.len < f.cap then (true, { f with buf := f.buf ++ [b] })
  else (false, f)

/-- `FIFO::out() -> byte`: dequeue the oldest byte (unspecified, modelled
as 0, on an empty buffer). -/
def FIFO.out (f : FIFO) : Nat × FIFO :=
  match f.buf with
  | [] => (0, f)
  | b :: rest => (b, { f with size := f.size, buf := rest })

/-- `FIFO::clear()`. -/
def FIFO.clear (f : FIFO) : FIFO := { f with buf := [] }

/-- A freshly constructed, empty FIFO (`FIFO(size)`). -/
def FIFO.new (size : Nat) : FIFO := ⟨size, []⟩

/-- A sequence of `in`/`out` calls on a FIFO. -/
inductive FifoOp where
  | push (b : Nat)
  | pop
  deriving Repr, DecidableEq

/-- Apply one `in`/`out` call, keeping only the buffer state. -/
def FIFO.applyOp (f : FIFO) : FifoOp → FIFO
  | .push b => (f.inb b).2
  | .pop => f.out.2

/-- Apply a sequence of `in`/`out` calls. -/
def FIFO.applyOps (f : FIFO) (ops : List FifoOp) : FIFO :=
  ops.foldl FIFO.applyOp f

/-! ## FIFO sizes and flow-control thresholds (src/afsk.cpp lines 33-39) -/

/-- `fifoSize = 6` (so the TX/RX FIFO capacity is 64). -/
def fifoSize : Nat := 6

/-- `fifoLow = 1 << (fifoSize - 2) = 16`. -/
def fifoLow : Nat := 1 <<< (fifoSize - 2)

/-- `fifoMed = 1 << (fifoSize - 1) = 32`. -/
def fifoMed : Nat := 1 <<< (fifoSize - 1)

/-- `fifoHgh = (1 << fifoSize) - fifoLow = 48`. -/
def fifoHgh : Nat := (1 <<< fifoSize) - fifoLow

/-! ## Bit-period timing constants (AFSK::setModemType, lines 79-82) -/

/-- `hlfBit = fulBit >> 1`. -/
def hlfBit (fulBit : Nat) : Nat := fulBit >>> 1

/-- `qrtBit = hlfBit >> 1`. -/
def qrtBit (fulBit : Nat) : Nat := hlfBit fulBit >>> 1

/-- `octBit = qrtBit >> 1`. -/
def octBit (fulBit : Nat) : Nat := qrtBit fulBit >>> 1

/-! ## TX modulator state machine (AFSK::txHandle, lines 178-314)

The phase accumulator `tx.idx` and the DAC output are the external
oscillator service (`wave.sample`, `wave.getStep`); they carry no framing
information, so the embedding tracks the framing state and the symbol
(`dtbit`) that selects the tone for the current sample. -/

inductive TxFSM where
  | WAIT
  | PREAMBLE
  | START_BIT
  | DATA_BIT
  | STOP_BIT
  | TRAIL
  deriving Repr, DecidableEq

/-- The TX state (`tx` member of AFSK). -/
structure TxSt where
  active : Nat
  carrier : Nat
  state : TxFSM
  dtbit : Nat
  data : Nat
  bits : Nat
  clk : Nat
  deriving Repr, DecidableEq

/-- The body of the `switch (tx.state)` in `AFSK::txHandle`, executed once
per bit period (when `tx.clk++ >= fulBit` fired and `tx.clk` was reset).
`carBits` is the preamble/trail length constant from `afsk.h`, `dtbits`
is `cfgAFSK.dtbits`. -/
def txBitAdvance (carBits dtbits : Nat) (tx : TxSt) (fifo : FIFO) : TxSt × FIFO :=
  match tx.state with
  | .WAIT =>
    -- the carrier is MARK; then check the FIFO
    let tx := { tx with dtbit := MARK }
    if fifo.empty then
      ({ tx with state := .WAIT }, fifo)
    else
      let (b, fifo') := fifo.out
      ({ tx with data := b, state := .PREAMBLE, bits := 0 }, fifo')
  | .PREAMBLE =>
    if tx.bits + 1 ≥ carBits ∨ tx.carrier = ON then
      ({ tx with bits := tx.bits + 1, state := .START_BIT, dtbit := SPACE }, fifo)
    else
      ({ tx with bits := tx.bits + 1 }, fifo)
  | .START_BIT =>
    ({ tx with state := .DATA_BIT, dtbit := tx.data &&& 0x01,
               data := tx.data >>> 1, bits := 0 }, fifo)
  | .DATA_BIT =>
    if tx.bits + 1 < dtbits then
      ({ tx with bits := tx.bits + 1, dtbit := tx.data &&& 0x01,
                 data := tx.data >>> 1 }, fifo)
    else
      ({ tx with bits := tx.bits + 1, state := .STOP_BIT, dtbit := MARK }, fifo)
  | .STOP_BIT =>
    if fifo.empty then
      ({ tx with state := .TRAIL, dtbit := MARK, bits := 0 }, fifo)
    else
      let (b, fifo') := fifo.out
      ({ tx with state := .START_BIT, dtbit := SPACE, data := b }, fifo')
  | .TRAIL =>
    if tx.bits + 1 > carBits then
      ({ tx with bits := tx.bits + 1, active := OFF, state := .WAIT }, fifo)
    else if tx.bits + 1 = carBits ∧ tx.carrier = OFF then
      -- dtbit := MARK (already MARK), reset phase and clock for the next TX
      ({ tx with bits := tx.bits + 1, dtbit := MARK, clk := 0 }, fifo)
    else if fifo.empty then
      ({ tx with bits := tx.bits + 1 }, fifo)
    else
      let (b, fifo') := fifo.out
      ({ tx with bits := tx.bits + 1, state := .START_BIT, dtbit := SPACE, data := b }, fifo')

/-- One call of `AFSK::txHandle` along the framing path (`tx.active` or
`tx.carrier` on): returns the symbol whose tone is emitted for this
sample (`none` when no sample is emitted), and the updated state.  The
`tx.clk++ >= fulBit` post-increment compares the old counter value, so
the advance fires on the sample where `tx.clk = fulBit` — i.e. every
`fulBit + 1` samples. -/
def txHandleStep (fulBit carBits dtbits : Nat) (tx : TxSt) (fifo : FIFO) :
    Option Nat × TxSt × FIFO :=
  if tx.active = ON ∨ tx.carrier = ON then
    let sym := tx.dtbit
    if tx.clk ≥ fulBit then
      let (tx', fifo') := txBitAdvance carBits dtbits { tx with clk := 0 } fifo
      (some sym, tx', fifo')
    else
      (some sym, { tx with clk := tx.clk + 1 }, fifo)
  else
    (none, tx, fifo)

/-- `AFSK::setCarrier` (lines 714-716): `tx.carrier = onoff & cfg->txcarr`. -/
def setCarrier (tx : TxSt) (txcarr : Nat) (onoff : Nat) : TxSt :=
  { tx with carrier := onoff &&& txcarr }

/-! ## RX decoder state machine (AFSK::rxDecoder, lines 373-515) -/

inductive RxFSM where
  | CARRIER
  | WAIT
  | PREAMBLE
  | START_BIT
  | DATA_BIT
  | STOP_BIT
  deriving Repr, DecidableEq

/-- The RX decoder state (the framing fields of the `rx` member; the IIR
filter taps belong to the demodulator, see `C1` below). -/
structure RxSt where
  state : RxFSM
  data : Nat
  bits : Nat
  clk : Nat
  bitsum : Nat
  stream : Nat
  carrier : Nat
  deriving Repr, DecidableEq

/-- The RX side: decoder state, the carrier-detect counter `cdCount`
(an AFSK member) and the RX FIFO. -/
structure RxSide where
  rx : RxSt
  cdCount : Nat
  fifo : FIFO
  deriving Repr, DecidableEq

/-- One call of `AFSK::rxDecoder` with decoded data bit `bt` (0 or 1).
`fulBit`/`dtbits`/`cdTotal` are the timing constants computed in
`AFSK::setModemType`.  The bitsum, bit stream and sample counter are
updated first (lines 375-380), then the state machine runs. -/
def rxDecoder (fulBit dtbits cdTotal : Nat) (bt : Nat) (s : RxSide) : RxSide :=
  let rx0 := { s.rx with
    bitsum := s.rx.bitsum + bt,
    stream := ((s.rx.stream <<< 1) ||| bt) % 256,
    clk := s.rx.clk + 1 }
  match rx0.state with
  | .CARRIER =>
    if bt ≠ 0 then
      if s.cdCount + 1 ≥ cdTotal then
        { s with rx := { rx0 with carrier := ON, state := .WAIT }, cdCount := s.cdCount + 1 }
      else
        { s with rx := rx0, cdCount := s.cdCount + 1 }
    else
      { s with rx := rx0, cdCount := 0 }
  | .WAIT =>
    if rx0.stream &&& 0x03 = 0x02 then
      { s with rx := { rx0 with state := .PREAMBLE, clk := 0, bitsum := 0 } }
    else
      { s with rx := rx0 }
  | .PREAMBLE =>
    if rx0.clk ≥ hlfBit fulBit then
      if rx0.bitsum > octBit fulBit then
        { s with rx := { rx0 with state := .WAIT } }
      else
        { s with rx := { rx0 with state := .START_BIT } }
    else
      { s with rx := rx0 }
  | .START_BIT =>
    if rx0.clk ≥ fulBit then
      if rx0.bitsum > qrtBit fulBit then
        { s with rx := { rx0 with state := .WAIT } }
      else
        { s with rx := { rx0 with state := .DATA_BIT, data := 0, clk := 0,
                                  bitsum := 0, bits := 0 } }
    else
      { s with rx := rx0 }
  | .DATA_BIT =>
    if rx0.clk ≥ fulBit then
      let d := (rx0.data >>> 1) ||| (if rx0.bitsum > hlfBit fulBit then 0x80 else 0x00)
      if rx0.bits + 1 < dtbits then
        { s with rx := { rx0 with data := d, bits := rx0.bits + 1, clk := 0, bitsum := 0 } }
      else
        { s with rx := { rx0 with data := d, bits := rx0.bits + 1, state := .STOP_BIT,
                                  clk := hlfBit fulBit, bitsum := 0 } }
    else
      { s with rx := rx0 }
  | .STOP_BIT =>
    if rx0.clk ≥ fulBit then
      let fifo' := if rx0.bitsum > qrtBit fulBit then (s.fifo.inb rx0.data).2 else s.fifo
      { s with rx := { rx0 with state := .WAIT }, fifo := fifo' }
    else
      { s with rx := rx0 }

/-! ## Noise-free loopback (claim C1)

Modelled from the spec: the oscillator service (`wave.sample`,
`wave.getStep`, declared in `afsk.h`) and hence the concrete tone
waveform that `AFSK::rxHandle` discriminates are not part of the
sources.  Spec §4.2 specifies that the demodulator turns each incoming
sample into a binary tone decision (MARK for the mark tone, SPACE for the
space tone); so in the noise-free loopback with matching profiles the
decision fed to `rxDecoder` for each sample equals the symbol the
transmitter emitted that sample (a constant demodulation delay shifts
every decision equally and is absorbed by the decoder's edge-triggered
resynchronisation, so it is dropped). -/

/-- Combined loopback state: TX machine, TX FIFO, RX side. -/
structure Loop where
  tx : TxSt
  txF : FIFO
  rxs : RxSide
  deriving Repr, DecidableEq

/-- One sample tick of the loopback: run the TX modulator; if it emitted a
sample, feed the corresponding tone decision into the RX decoder. -/
def loopStep (fulBit carBits dtbits cdTotal : Nat) (st : Loop) : Loop :=
  let (sym, tx', txF') := txHandleStep fulBit carBits dtbits st.tx st.txF
  match sym with
  | some bt => { tx := tx', txF := txF',
                 rxs := rxDecoder fulBit dtbits cdTotal bt st.rxs }
  | none => { st with tx := tx', txF := txF' }

/-- Run `n` sample ticks of the loopback. -/
def loopRun (fulBit carBits dtbits cdTotal : Nat) : Nat → Loop → Loop
  | 0, st => st
  | n + 1, st => loopRun fulBit carBits dtbits cdTotal n (loopStep fulBit carBits dtbits cdTotal st)

/-- Initial loopback state: TX activated on a queue holding `bytes`
(carrier already detected on the RX side, decoder in WAIT). -/
def loopInit (bytes : List Nat) : Loop :=
  { tx := { active := ON, carrier := OFF, state := .WAIT, dtbit := MARK,
            data := 0, bits := 0, clk := 0 },
    txF := ⟨fifoSize, bytes⟩,
    rxs := { rx := { state := .WAIT, data := 0, bits := 0, clk := 0,
                     bitsum := 0, stream := 0, carrier := ON },
             cdCount := 0,
             fifo := FIFO.new fifoSize } }

/-! ## Serial bridge (AFSK::doSIO, lines 521-638)

The bridge runs outside the sample tick.  Each call is modelled with the
current `millis()` value `now` and at most one pending serial input byte
(`inp`); `Serial.available()` is `inp.isSome`, `Serial.peek()` sees the
byte without consuming it, `Serial.read()` consumes it (returning 0xFF,
the `uint8_t` image of -1, if the byte was already consumed earlier in
the same call).  Bytes written to the transport are appended to
`serialOut`. -/

inductive Mode where
  | command
  | data
  deriving Repr, DecidableEq

/-- The configuration fields of `CFG_t` read by `doSIO`:
`sregs[2]` (escape character), `sregs[12]` (guard time, 20 ms units),
`flwctr` (flow control mode: 0 none, 3 RTS/CTS, 4 XON/XOFF) and
`dtecho` (local data-mode echo). -/
structure CFG where
  sregs2 : Nat
  sregs12 : Nat
  flwctr : Nat
  dtecho : Bool
  deriving Repr, DecidableEq

/-- The state touched by `doSIO`: the two FIFOs, the `flowControl` and
mode flags, the escape-detector statics (`escCount`, `escFirst`,
`escLast`, `lstChar`), the guard time `_guard = cfg->sregs[12] * 20`
fixed at `AFSK::init`, the configuration, `tx.active`, the PORTB output
register (bit 1 = TX led, bit 2 = CD led / RTS line) and the bytes
written to the serial transport so far. -/
structure SIOSt where
  txFIFO : FIFO
  rxFIFO : FIFO
  flowControl : Bool
  mode : Mode
  escCount : Nat
  escFirst : Nat
  escLast : Nat
  lstChar : Nat
  guard : Nat
  cfg : CFG
  txActive : Nat
  portB : Nat
  serialOut : List Nat
  deriving Repr, DecidableEq

/-- The escape-completion block (`if (escCount == 3) ...`, lines
537-557): after a full guard silence following the third escape
character, switch to command mode and acknowledge with "\r\nOK\r\n";
before that, a pending CR/LF is consumed and ignored, and any other
pending character cancels the candidate sequence (without being
consumed here). -/
def escBlock (s : SIOSt) (now : Nat) (inp : Option Nat) : SIOSt × Option Nat :=
  if s.escCount = 3 then
    if now - s.escLast > s.cfg.sregs12 * 20 then
      ({ s with mode := Mode.command, escCount := 0,
                serialOut := s.serialOut ++ [13, 10, 79, 75, 13, 10] }, inp)
    else
      match inp with
      | some c =>
        if c = 13 ∨ c = 10 then (s, none)
        else ({ s with escCount := 0 }, inp)
      | none => (s, inp)
  else (s, inp)

/-- The escape-character counting block (lines 560-582): a peeked byte
equal to `cfg->sregs[2]` starts a new candidate sequence when more than
the guard time has passed since the first escape character (and at least
the guard time since the last data character); otherwise — i.e. still
within the guard window measured from the FIRST escape character — it
increments the count, recording the time of the third one. -/
def plusBlock (s : SIOSt) (now : Nat) (inp : Option Nat) : SIOSt :=
  match inp with
  | some c =>
    if c = s.cfg.sregs2 then
      if now - s.escFirst > s.guard then
        if now - s.lstChar ≥ s.guard then
          { s with escCount := 1, escFirst := now }
        else s
      else
        if s.escCount + 1 = 3 then
          { s with escCount := s.escCount + 1, escLast := now }
        else
          { s with escCount := s.escCount + 1 }
    else s
  | none => s

/- The data-mode block (lines 584-638) is split into its three
sequential stages.  Note on lines 604-623: the C source compares the
flow-control mode with assignment (`cfg->flwctr = 4` / `= 3`); the first
condition assigns 4 and is always non-zero, so the XON/XOFF branch is
always taken and `flwctr` is overwritten with 4 — the model reproduces
exactly that. -/

/-- Byte-accept / flow-control-engage stage (lines 586-613): below the
high threshold a pending byte is accepted into the TX FIFO when the
queue is below the medium threshold or flow control is off; at or above
the high threshold flow control is engaged. -/
def dataAccept (s : SIOSt) (now : Nat) (avail : Bool) (inp : Option Nat) : SIOSt :=
  if s.txFIFO.len < fifoHgh then
    if avail = true ∧ (s.txFIFO.len < fifoMed ∨ s.flowControl = false) then
      let c := match inp with | some c => c | none => 0xFF
      let r := s.txFIFO.inb c
      { s with txFIFO := r.2,
               serialOut := if r.1 && s.cfg.dtecho then s.serialOut ++ [c] else s.serialOut,
               lstChar := now, txActive := ON, portB := s.portB ||| 2 }
    else s
  else if s.flowControl = false ∧ s.cfg.flwctr ≠ 0 then
    { s with cfg := { s.cfg with flwctr := 4 },
             serialOut := s.serialOut ++ [0x13], flowControl := true }
  else s

/-- Flow-control release stage (lines 615-624). -/
def dataRelease (s : SIOSt) : SIOSt :=
  if s.flowControl = true ∧ s.txFIFO.len < fifoLow then
    { s with cfg := { s.cfg with flwctr := 4 },
             serialOut := s.serialOut ++ [0x11], flowControl := false }
  else s

/-- RX-drain stage (lines 626-631). -/
def dataDrain (s : SIOSt) : SIOSt :=
  if s.rxFIFO.empty = false then
    { s with rxFIFO := s.rxFIFO.out.2, serialOut := s.serialOut ++ [s.rxFIFO.out.1] }
  else s

def dataBlock (s : SIOSt) (now : Nat) (avail : Bool) (inp : Option Nat) : SIOSt × Bool :=
  if s.mode = Mode.command then (s, false)
  else (dataDrain (dataRelease (dataAccept s now avail inp)), true)

/-- One call of `AFSK::doSIO` at time `now` with pending input `inp`. -/
def doSIOStep (s : SIOSt) (now : Nat) (inp : Option Nat) : SIOSt × Bool :=
  let avail := inp.isSome
  let r := escBlock s now inp
  let s2 := plusBlock r.1 now r.2
  dataBlock s2 now avail r.2

/-- A sequence of `doSIO` calls, each given as `(millis, pending byte)`. -/
def sioRun (s : SIOSt) (calls : List (Nat × Option Nat)) : SIOSt :=
  calls.foldl (fun st c => (doSIOStep st c.1 c.2).1) s

/-- Initial bridge state right after `AFSK::init`: empty FIFOs, data
mode, no flow control, escape detector idle, escape character '+' (43),
S12 = 1 so `_guard = 20` ms, no configured flow-control mode, echo off. -/
def sioInit : SIOSt :=
  { txFIFO := FIFO.new fifoSize, rxFIFO := FIFO.new fifoSize,
    flowControl := false, mode := Mode.data,
    escCount := 0, escFirst := 0, escLast := 0, lstChar := 0,
    guard := 20,
    cfg := { sregs2 := 43, sregs12 := 1, flwctr := 0, dtecho := false },
    txActive := OFF, portB := 4, serialOut := [] }

/-! ## Helper lemmas for the ring-buffer invariant -/

/-- `in`/`out` calls never change the size (hence capacity) of a FIFO. -/
lemma FIFO.applyOp_size (f : FIFO) (op : FifoOp) : (f.applyOp op).size = f.size := by
  cases op with
  | push b =>
    simp only [FIFO.applyOp, FIFO.inb]
    split <;> rfl
  | pop =>
    simp only [FIFO.applyOp, FIFO.out]
    cases f.buf <;> rfl

/-- A single `in`/`out` call preserves the occupancy bound. -/
lemma FIFO.applyOp_len_le (f : FIFO) (op : FifoOp) (h : f.len ≤ 2 ^ f.size) :
    (f.applyOp op).len ≤ 2 ^ f.size := by
  cases op with
  | push b =>
    simp only [FIFO.applyOp, FIFO.inb, FIFO.cap] at *
    split
    · next hlt => simpa [FIFO.len] using hlt
    · exact h
  | pop =>
    simp only [FIFO.applyOp, FIFO.out] at *
    cases hb : f.buf with
    | nil => simpa [hb] using h
    | cons b rest =>
      simp only [FIFO.len, hb, List.length_cons] at h ⊢
      omega

/-- Any sequence of `in`/`out` calls preserves the occupancy bound. -/
lemma FIFO.applyOps_len_le (ops : List FifoOp) (f : FIFO) (h : f.len ≤ 2 ^ f.size) :
    (f.applyOps ops).len ≤ 2 ^ (f.applyOps ops).size := by
  induction ops generalizing f with
  | nil => simpa [FIFO.applyOps] using h
  | cons op rest ih =>
    have hs := f.applyOp_size op
    have := ih (f.applyOp op) (by rw [hs]; exact f.applyOp_len_le op h)
    simpa [FIFO.applyOps] using this

/-! ## Claim theorems -/

/-- C4: for every sequence of `in()` and `out()` calls on a ring buffer
starting empty, `len()` never exceeds the capacity; and `in()` called on
a full buffer returns `false` and leaves the buffer contents unchanged. -/
theorem c4_ring_buffer_never_overflows :
    (∀ (size : Nat) (ops : List FifoOp),
       (FIFO.applyOps (FIFO.new size) ops).len ≤ (FIFO.applyOps (FIFO.new size) ops).cap) ∧
    (∀ (f : FIFO) (b : Nat), f.cap ≤ f.len → f.inb b = (false, f)) := by
  constructor
  · intro size ops
    have : (FIFO.new size).len ≤ 2 ^ (FIFO.new size).size := by
      simp [FIFO.new, FIFO.len]
    simpa [FIFO.cap] using FIFO.applyOps_len_le ops (FIFO.new size) this
  · intro f b h
    simp [FIFO.inb, not_lt.mpr h]

/-- Witness for C4 at a concrete buffer and call sequence. -/
theorem c4_witness :
    (FIFO.applyOps (FIFO.new 2) [FifoOp.push 1, FifoOp.push 2, FifoOp.pop]).len ≤
      (FIFO.applyOps (FIFO.new 2) [FifoOp.push 1, FifoOp.push 2, FifoOp.pop]).cap ∧
    FIFO.inb ⟨1, [5, 6]⟩ 7 = (false, (⟨1, [5, 6]⟩ : FIFO)) :=
  ⟨c4_ring_buffer_never_overflows.1 2 [FifoOp.push 1, FifoOp.push 2, FifoOp.pop],
   c4_ring_buffer_never_overflows.2 ⟨1, [5, 6]⟩ 7 (by decide)⟩

/-- C1: evaluation of the loopback at the failing input.  With
`fulBit = F_SAMPLE / baud = 8` samples per bit (1200 baud at the 9600 Hz
sample clock; the same failure occurs for every `fulBit ≤ 32`, including
the 300 baud Bell 103 setting `fulBit = 32`), 8 data bits and 2
preamble/trail carrier bits, transmitting the single byte 0x41 to
completion delivers nothing to the RX queue: the byte is silently
dropped, refuting the round-trip property.  Cause: the post-increment in
`if (tx.clk++ >= fulBit)` makes every transmitted bit last `fulBit + 1`
samples while the receiver consumes exactly `fulBit` samples per bit, so
the receiver's stop-bit half-window drifts 9 samples back into the last
data bit; for a byte whose MSB is 0 the window then fails the
`rx.bitsum > qrtBit` stop-bit check. -/
theorem c1_loopback_drops_0x41 :
    (loopRun 8 2 8 1000 160 (loopInit [0x41])).tx.active = OFF ∧
    (loopRun 8 2 8 1000 160 (loopInit [0x41])).txF.buf = [] ∧
    (loopRun 8 2 8 1000 160 (loopInit [0x41])).rxs.fifo.buf = [] := by
  decide

/-- Sanity check that the loopback embedding does transport data: a byte
with MSB set survives the drift and is delivered intact. -/
theorem loopback_delivers_0xFF :
    (loopRun 8 2 8 1000 160 (loopInit [0xFF])).rxs.fifo.buf = [0xFF] := by
  decide

/-- C6: in the PREAMBLE state, on the sample where half a bit period has
been collected (`rx.clk` reaches `hlfBit`), the decoder returns to WAIT
exactly when more than 1/8 of a bit period of samples (`octBit`) were
HIGH, and otherwise transitions to START_BIT.  (The claim's "1/8 of the
samples" threshold is `octBit = fulBit / 8`, i.e. one eighth of a full
bit period — one quarter of the half-period window actually collected —
matching the spec's parallel STOP_BIT/START_BIT thresholds, which are
also expressed as fractions of a full period.) -/
theorem c6_preamble_validation (fulBit dtbits cdTotal bt : Nat) (s : RxSide)
    (hst : s.rx.state = RxFSM.PREAMBLE) (hclk : hlfBit fulBit ≤ s.rx.clk + 1) :
    ((rxDecoder fulBit dtbits cdTotal bt s).rx.state = RxFSM.WAIT ↔
       octBit fulBit < s.rx.bitsum + bt) ∧
    ((rxDecoder fulBit dtbits cdTotal bt s).rx.state = RxFSM.START_BIT ↔
       s.rx.bitsum + bt ≤ octBit fulBit) := by
  obtain ⟨⟨st, d, bits, clk, bsum, strm, carr⟩, cd, fifo⟩ := s
  simp only at hst hclk
  subst hst
  simp only [rxDecoder]
  rw [if_pos hclk]
  by_cases hb : octBit fulBit < bsum + bt
  · rw [if_pos hb]
    constructor
    · simp [hb]
    · simp
      omega
  · rw [if_neg hb]
    constructor
    · simp
      omega
    · simp
      omega

/-- A concrete PREAMBLE decoder state: half-bit window complete at the
incoming sample, 4 HIGH samples among the 16 collected. -/
def rxPreEx : RxSide :=
  { rx := { state := RxFSM.PREAMBLE, data := 0, bits := 0, clk := 15, bitsum := 3,
            stream := 0, carrier := 1 },
    cdCount := 0, fifo := FIFO.new fifoSize }

/-- Witness for C6 at `fulBit = 32`: 4 HIGHs is not more than
`octBit = 4`, so the candidate start bit is accepted. -/
theorem c6_witness :
    (rxDecoder 32 8 1000 1 rxPreEx).rx.state = RxFSM.WAIT ↔ octBit 32 < 3 + 1 :=
  (c6_preamble_validation 32 8 1000 1 rxPreEx rfl (by decide)).1

/-- C7: in the STOP_BIT state, on the sample completing the half-bit
window (`rx.clk` reaches `fulBit`, having started at `hlfBit`), the
assembled byte is pushed into the RX queue exactly when the HIGH count
exceeds a quarter of a full bit period (`qrtBit`); otherwise the byte is
discarded; in both cases the decoder returns to WAIT. -/
theorem c7_stop_bit (fulBit dtbits cdTotal bt : Nat) (s : RxSide)
    (hst : s.rx.state = RxFSM.STOP_BIT) (hclk : fulBit ≤ s.rx.clk + 1) :
    (rxDecoder fulBit dtbits cdTotal bt s).rx.state = RxFSM.WAIT ∧
    (qrtBit fulBit < s.rx.bitsum + bt →
       (rxDecoder fulBit dtbits cdTotal bt s).fifo = (s.fifo.inb s.rx.data).2) ∧
    (s.rx.bitsum + bt ≤ qrtBit fulBit →
       (rxDecoder fulBit dtbits cdTotal bt s).fifo = s.fifo) := by
  obtain ⟨⟨st, d, bits, clk, bsum, strm, carr⟩, cd, fifo⟩ := s
  simp only at hst hclk
  subst hst
  simp only [rxDecoder]
  rw [if_pos hclk]
  refine ⟨rfl, fun h => ?_, fun h => ?_⟩
  · simp [if_pos h]
  · simp [if_neg (not_lt.mpr h)]

/-- A concrete STOP_BIT decoder state with a clean first half stop bit. -/
def rxStopEx : RxSide :=
  { rx := { state := RxFSM.STOP_BIT, data := 0x41, bits := 8, clk := 31, bitsum := 15,
            stream := 0, carrier := 1 },
    cdCount := 0, fifo := FIFO.new fifoSize }

/-- Witness for C7 at `fulBit = 32`: 16 HIGHs exceeds `qrtBit = 8`, so the
byte is pushed and the decoder returns to WAIT. -/
theorem c7_witness :
    (rxDecoder 32 8 1000 1 rxStopEx).rx.state = RxFSM.WAIT ∧
    (rxDecoder 32 8 1000 1 rxStopEx).fifo = (rxStopEx.fifo.inb 0x41).2 :=
  ⟨(c7_stop_bit 32 8 1000 1 rxStopEx rfl (by decide)).1,
   (c7_stop_bit 32 8 1000 1 rxStopEx rfl (by decide)).2.1 (by decide)⟩

/-- C9 as stated: in the TX PREAMBLE state, MARK is held for the
configured number of bit periods or until the forced-carrier flag is
cleared, whichever comes first — so while the flag is still ON and the
configured count has not elapsed, the modulator must keep holding MARK in
PREAMBLE. -/
def ClaimC9 (carBits dtbits : Nat) : Prop :=
  ∀ (tx : TxSt) (fifo : FIFO), tx.state = TxFSM.PREAMBLE → tx.dtbit = MARK →
    tx.carrier = ON → tx.bits + 1 < carBits →
    (txBitAdvance carBits dtbits tx fifo).1.state = TxFSM.PREAMBLE ∧
    (txBitAdvance carBits dtbits tx fifo).1.dtbit = MARK

/-- C9 counterexample: with `carBits = 4` and the forced-carrier flag ON,
the very first PREAMBLE bit boundary already emits SPACE and moves to
START_BIT (the code exits the preamble early when `tx.carrier == ON`,
not when the flag is cleared). -/
theorem c9_counterexample : ¬ ClaimC9 4 8 := by
  intro h
  have := h ⟨ON, ON, TxFSM.PREAMBLE, MARK, 0, 0, 0⟩ (FIFO.new fifoSize) rfl rfl rfl (by decide)
  exact absurd this.1 (by decide)

/-- C9 amended: in the TX PREAMBLE state, MARK is held for the configured
number of bit periods or until the forced-carrier flag is SET, whichever
comes first; only then does the modulator emit SPACE and transition to
START_BIT. -/
theorem c9_preamble_exit (carBits dtbits : Nat) (tx : TxSt) (fifo : FIFO)
    (hst : tx.state = TxFSM.PREAMBLE) (hdt : tx.dtbit = MARK) :
    ((carBits ≤ tx.bits + 1 ∨ tx.carrier = ON) →
       (txBitAdvance carBits dtbits tx fifo).1.state = TxFSM.START_BIT ∧
       (txBitAdvance carBits dtbits tx fifo).1.dtbit = SPACE) ∧
    (¬(carBits ≤ tx.bits + 1 ∨ tx.carrier = ON) →
       (txBitAdvance carBits dtbits tx fifo).1.state = TxFSM.PREAMBLE ∧
       (txBitAdvance carBits dtbits tx fifo).1.dtbit = MARK) ∧
    (txBitAdvance carBits dtbits tx fifo).2 = fifo := by
  obtain ⟨act, carr, st, dtb, dat, bits, clk⟩ := tx
  simp only at hst hdt
  subst hst; subst hdt
  simp only [txBitAdvance]
  refine ⟨fun h => ?_, fun h => ?_, ?_⟩
  · rw [if_pos h]
    exact ⟨rfl, rfl⟩
  · rw [if_neg h]
    exact ⟨rfl, rfl⟩
  · by_cases h : carBits ≤ bits + 1 ∨ carr = ON
    · rw [if_pos h]
    · rw [if_neg h]

/-- Witness for C9 (amended) at a concrete state: the fourth preamble bit
boundary with `carBits = 4` emits SPACE and enters START_BIT. -/
theorem c9_witness :
    (txBitAdvance 4 8 ⟨ON, OFF, TxFSM.PREAMBLE, MARK, 0, 3, 0⟩ (FIFO.new fifoSize)).1.state
      = TxFSM.START_BIT ∧
    (txBitAdvance 4 8 ⟨ON, OFF, TxFSM.PREAMBLE, MARK, 0, 3, 0⟩ (FIFO.new fifoSize)).1.dtbit
      = SPACE :=
  (c9_preamble_exit 4 8 ⟨ON, OFF, TxFSM.PREAMBLE, MARK, 0, 3, 0⟩ (FIFO.new fifoSize) rfl rfl).1
    (Or.inl (by decide))

/-- C10: `setCarrier(v)` stores `v` bitwise-ANDed with the configured
carrier-enable mask `cfg->txcarr`; with a zero mask the carrier can never
be forced on. -/
theorem c10_setCarrier_masked (tx : TxSt) (txcarr v : Nat) :
    (setCarrier tx txcarr v).carrier = v &&& txcarr ∧
    (txcarr = 0 → (setCarrier tx txcarr ON).carrier = OFF) := by
  refine ⟨rfl, fun h => ?_⟩
  subst h
  simp [setCarrier, ON, OFF]

/-- Witness for C10: with mask 0, forcing the carrier ON leaves it OFF. -/
theorem c10_witness :
    (setCarrier ⟨1, 1, TxFSM.WAIT, 1, 0, 0, 0⟩ 0 ON).carrier = OFF :=
  (c10_setCarrier_masked ⟨1, 1, TxFSM.WAIT, 1, 0, 0, 0⟩ 0 ON).2 rfl


/-- The symbol emitted during each successive bit period: iterate the
bit-boundary advance of `AFSK::txHandle`, recording `tx.dtbit` (the
symbol whose tone is emitted for the following bit period) after each
advance. -/
def txTrace (carBits dtbits : Nat) : Nat → TxSt → FIFO → List Nat
  | 0, _, _ => []
  | n + 1, tx, fifo =>
    (txBitAdvance carBits dtbits tx fifo).1.dtbit ::
      txTrace carBits dtbits n (txBitAdvance carBits dtbits tx fifo).1
        (txBitAdvance carBits dtbits tx fifo).2

lemma txTrace_succ (carBits dtbits n : Nat) (tx : TxSt) (fifo : FIFO) :
    txTrace carBits dtbits (n + 1) tx fifo =
    (txBitAdvance carBits dtbits tx fifo).1.dtbit ::
      txTrace carBits dtbits n (txBitAdvance carBits dtbits tx fifo).1
        (txBitAdvance carBits dtbits tx fifo).2 := rfl

/-- The start bit, eight data bits (LSB first) and stop bit of 0x41. -/
lemma txTrace_start (c b : Nat) :
    txTrace c 8 9 ⟨ON, OFF, TxFSM.START_BIT, SPACE, 0x41, b, 0⟩ ⟨fifoSize, []⟩ =
    [1, 0, 0, 0, 0, 0, 1, 0, 1] := by
  simp [txTrace, txBitAdvance, FIFO.empty, FIFO.out, MARK, SPACE, ON, OFF]

/-- MARK is held for the remaining preamble periods, then the start bit
and the frame of 0x41 follow. -/
lemma txTrace_preamble (c : Nat) : ∀ (k b : Nat), b + (k + 1) = c →
    txTrace c 8 (k + 10) ⟨ON, OFF, TxFSM.PREAMBLE, MARK, 0x41, b, 0⟩ ⟨fifoSize, []⟩ =
    List.replicate k MARK ++ [SPACE, 1, 0, 0, 0, 0, 0, 1, 0, MARK] := by
  intro k
  induction k with
  | zero =>
    intro b hb
    have hadv : txBitAdvance c 8 ⟨ON, OFF, TxFSM.PREAMBLE, MARK, 0x41, b, 0⟩ ⟨fifoSize, []⟩
        = (⟨ON, OFF, TxFSM.START_BIT, SPACE, 0x41, b + 1, 0⟩, ⟨fifoSize, []⟩) := by
      simp only [txBitAdvance]
      rw [if_pos (Or.inl (by omega : c ≤ b + 1))]
    show txTrace c 8 (9 + 1) ⟨ON, OFF, TxFSM.PREAMBLE, MARK, 0x41, b, 0⟩ ⟨fifoSize, []⟩ = _
    rw [txTrace_succ, hadv, txTrace_start]
    rfl
  | succ k ih =>
    intro b hb
    have hstay : ¬(c ≤ b + 1 ∨ (OFF : Nat) = ON) := by
      rintro (h | h)
      · omega
      · exact absurd h (by decide)
    have hadv : txBitAdvance c 8 ⟨ON, OFF, TxFSM.PREAMBLE, MARK, 0x41, b, 0⟩ ⟨fifoSize, []⟩
        = (⟨ON, OFF, TxFSM.PREAMBLE, MARK, 0x41, b + 1, 0⟩, ⟨fifoSize, []⟩) := by
      simp only [txBitAdvance]
      rw [if_neg hstay]
    show txTrace c 8 ((k + 10) + 1) ⟨ON, OFF, TxFSM.PREAMBLE, MARK, 0x41, b, 0⟩ ⟨fifoSize, []⟩ = _
    rw [txTrace_succ, hadv, ih (b + 1) (by omega)]
    rfl

/-- C5: transmitting the single byte 0x41, the symbol sequence at the
bit-period framing boundary is MARK for each of the `carBits` preamble
periods, one SPACE start bit, the eight data bits 1,0,0,0,0,0,1,0 (LSB
first), then MARK for the stop bit. -/
theorem c5_tx_frame_0x41 (carBits : Nat) (hc : 1 ≤ carBits) :
    txTrace carBits 8 (carBits + 10)
      ⟨ON, OFF, TxFSM.WAIT, MARK, 0, 0, 0⟩ ⟨fifoSize, [0x41]⟩ =
    List.replicate carBits MARK ++ [SPACE, 1, 0, 0, 0, 0, 0, 1, 0, MARK] := by
  obtain ⟨k, rfl⟩ : ∃ k, carBits = k + 1 := ⟨carBits - 1, by omega⟩
  have hadv : txBitAdvance (k + 1) 8 ⟨ON, OFF, TxFSM.WAIT, MARK, 0, 0, 0⟩ ⟨fifoSize, [0x41]⟩
      = (⟨ON, OFF, TxFSM.PREAMBLE, MARK, 0x41, 0, 0⟩, ⟨fifoSize, []⟩) := rfl
  show txTrace (k + 1) 8 ((k + 10) + 1) ⟨ON, OFF, TxFSM.WAIT, MARK, 0, 0, 0⟩ ⟨fifoSize, [0x41]⟩ = _
  rw [txTrace_succ, hadv, txTrace_preamble (k + 1) k 0 (by omega)]
  rfl

/-- Witness for C5 with `carBits = 8`. -/
theorem c5_witness :
    txTrace 8 8 18 ⟨ON, OFF, TxFSM.WAIT, MARK, 0, 0, 0⟩ ⟨fifoSize, [0x41]⟩ =
    List.replicate 8 MARK ++ [SPACE, 1, 0, 0, 0, 0, 0, 1, 0, MARK] :=
  c5_tx_frame_0x41 8 (by decide)
/-! ## Serial-bridge lemmas (claims C2, C3, C8) -/

lemma fifoLow_eq : fifoLow = 16 := by decide
lemma fifoMed_eq : fifoMed = 32 := by decide
lemma fifoHgh_eq : fifoHgh = 48 := by decide

/-- With fewer than three escape characters counted, the
escape-completion block is inert. -/
lemma escBlock_of_ne (s : SIOSt) (now : Nat) (inp : Option Nat) (h : s.escCount ≠ 3) :
    escBlock s now inp = (s, inp) := by
  simp [escBlock, h]

lemma plusBlock_flowControl (s : SIOSt) (now : Nat) (inp : Option Nat) :
    (plusBlock s now inp).flowControl = s.flowControl := by
  cases inp with
  | none => rfl
  | some c =>
    simp only [plusBlock]
    split_ifs <;> rfl

lemma plusBlock_txFIFO (s : SIOSt) (now : Nat) (inp : Option Nat) :
    (plusBlock s now inp).txFIFO = s.txFIFO := by
  cases inp with
  | none => rfl
  | some c =>
    simp only [plusBlock]
    split_ifs <;> rfl

lemma plusBlock_mode (s : SIOSt) (now : Nat) (inp : Option Nat) :
    (plusBlock s now inp).mode = s.mode := by
  cases inp with
  | none => rfl
  | some c =>
    simp only [plusBlock]
    split_ifs <;> rfl

lemma plusBlock_cfg (s : SIOSt) (now : Nat) (inp : Option Nat) :
    (plusBlock s now inp).cfg = s.cfg := by
  cases inp with
  | none => rfl
  | some c =>
    simp only [plusBlock]
    split_ifs <;> rfl

lemma FIFO.len_inb_ge (f : FIFO) (b : Nat) : f.len ≤ (f.inb b).2.len := by
  unfold FIFO.inb
  split
  · simp [FIFO.len]
  · exact le_refl _

lemma dataDrain_flowControl (s : SIOSt) : (dataDrain s).flowControl = s.flowControl := by
  simp only [dataDrain]
  split <;> rfl

lemma dataRelease_flowControl (s : SIOSt) :
    (dataRelease s).flowControl =
      if s.flowControl = true ∧ s.txFIFO.len < fifoLow then false else s.flowControl := by
  simp only [dataRelease]
  split <;> rfl

lemma dataAccept_below (s : SIOSt) (now : Nat) (avail : Bool) (inp : Option Nat)
    (hh : s.txFIFO.len < fifoHgh) :
    (dataAccept s now avail inp).flowControl = s.flowControl ∧
    s.txFIFO.len ≤ (dataAccept s now avail inp).txFIFO.len := by
  simp only [dataAccept, if_pos hh]
  split
  · exact ⟨rfl, FIFO.len_inb_ge s.txFIFO _⟩
  · exact ⟨rfl, le_refl _⟩

lemma dataAccept_engage (s : SIOSt) (now : Nat) (avail : Bool) (inp : Option Nat)
    (hh : ¬ s.txFIFO.len < fifoHgh) (hfc : s.flowControl = false) (h0 : s.cfg.flwctr ≠ 0) :
    (dataAccept s now avail inp).flowControl = true ∧
    (dataAccept s now avail inp).txFIFO = s.txFIFO := by
  simp only [dataAccept, if_neg hh, if_pos (And.intro hfc h0)]
  exact ⟨trivial, trivial⟩

lemma dataAccept_high_engaged (s : SIOSt) (now : Nat) (avail : Bool) (inp : Option Nat)
    (hh : ¬ s.txFIFO.len < fifoHgh) (hfc : s.flowControl = true) :
    dataAccept s now avail inp = s := by
  have hne : ¬(s.flowControl = false ∧ s.cfg.flwctr ≠ 0) := by
    rintro ⟨h1, -⟩
    rw [hfc] at h1
    exact Bool.noConfusion h1
  simp only [dataAccept, if_neg hh, if_neg hne]

lemma dataAccept_not_avail (s : SIOSt) (now : Nat) (avail : Bool) (inp : Option Nat)
    (hh : s.txFIFO.len < fifoHgh) (hav : avail = false) :
    dataAccept s now avail inp = s := by
  have hne : ¬(avail = true ∧ (s.txFIFO.len < fifoMed ∨ s.flowControl = false)) := by
    rintro ⟨h1, -⟩
    rw [hav] at h1
    exact Bool.noConfusion h1
  simp only [dataAccept, if_pos hh, if_neg hne]

/-- Flow-control behaviour of the data-mode block in data mode with a
configured flow-control mode. -/
lemma dataBlock_fc (p : SIOSt) (now : Nat) (avail : Bool) (inp : Option Nat)
    (hmode : p.mode = Mode.data) (hfc0 : p.cfg.flwctr ≠ 0) :
    (p.flowControl = false →
       ((dataBlock p now avail inp).1.flowControl = true ↔ fifoHgh ≤ p.txFIFO.len)) ∧
    (p.flowControl = true → fifoLow ≤ p.txFIFO.len →
       (dataBlock p now avail inp).1.flowControl = true) ∧
    (p.flowControl = true → avail = false →
       ((dataBlock p now avail inp).1.flowControl = false ↔ p.txFIFO.len < fifoLow)) := by
  have hm : ¬(p.mode = Mode.command) := by rw [hmode]; exact fun h => Mode.noConfusion h
  simp only [dataBlock, if_neg hm, dataDrain_flowControl, dataRelease_flowControl]
  refine ⟨fun hfcF => ?_, fun hfcT hlow => ?_, fun hfcT hav => ?_⟩
  · by_cases hh : p.txFIFO.len < fifoHgh
    · obtain ⟨ha1, -⟩ := dataAccept_below p now avail inp hh
      rw [ha1, hfcF]
      simp only [Bool.false_eq_true, false_and, if_false]
      rw [fifoHgh_eq] at hh
      constructor
      · intro h
        exact absurd h (by simp)
      · intro h
        rw [fifoHgh_eq] at h
        omega
    · obtain ⟨ha1, ha2⟩ := dataAccept_engage p now avail inp hh hfcF hfc0
      rw [ha1, ha2]
      rw [fifoHgh_eq] at hh
      rw [if_neg (by rw [fifoLow_eq]; rintro ⟨-, h2⟩; omega)]
      simp only [fifoHgh_eq, true_iff]
      omega
  · by_cases hh : p.txFIFO.len < fifoHgh
    · obtain ⟨ha1, ha2⟩ := dataAccept_below p now avail inp hh
      rw [ha1, hfcT]
      rw [if_neg (by rw [fifoLow_eq]; rintro ⟨-, h2⟩; rw [fifoLow_eq] at hlow; omega)]
    · rw [dataAccept_high_engaged p now avail inp hh hfcT]
      rw [hfcT]
      rw [if_neg (by rw [fifoLow_eq, fifoHgh_eq] at *; rintro ⟨-, h2⟩; omega)]
  · have hp : dataAccept p now avail inp = p := by
      by_cases hh : p.txFIFO.len < fifoHgh
      · exact dataAccept_not_avail p now avail inp hh hav
      · exact dataAccept_high_engaged p now avail inp hh hfcT
    rw [hp, hfcT]
    by_cases hl : p.txFIFO.len < fifoLow
    · rw [if_pos ⟨rfl, hl⟩]
      simp [hl]
    · rw [if_neg (by rintro ⟨-, h2⟩; exact hl h2)]
      simp [hl]

/-- C2: in data mode with flow control configured (and the escape
detector not at the completed-sequence stage), a `doSIO` call engages
backpressure exactly when the TX queue length has reached the high
threshold 48; once engaged it stays engaged at every length from the low
threshold 16 up; and (with no byte arriving) it is released exactly when
the length has fallen below 16, i.e. to 15. -/
theorem c2_flow_control_hysteresis (s : SIOSt) (now : Nat) (inp : Option Nat)
    (hmode : s.mode = Mode.data) (hesc : s.escCount ≠ 3) (hfc0 : s.cfg.flwctr ≠ 0) :
    (s.flowControl = false →
       ((doSIOStep s now inp).1.flowControl = true ↔ fifoHgh ≤ s.txFIFO.len)) ∧
    (s.flowControl = true → fifoLow ≤ s.txFIFO.len →
       (doSIOStep s now inp).1.flowControl = true) ∧
    (s.flowControl = true → inp = none →
       ((doSIOStep s now inp).1.flowControl = false ↔ s.txFIFO.len < fifoLow)) := by
  have hstep : doSIOStep s now inp = dataBlock (plusBlock s now inp) now inp.isSome inp := by
    simp only [doSIOStep, escBlock_of_ne s now inp hesc]
  have h1 := plusBlock_flowControl s now inp
  have h2 := plusBlock_txFIFO s now inp
  have h3 := plusBlock_mode s now inp
  have h4 := plusBlock_cfg s now inp
  have main := dataBlock_fc (plusBlock s now inp) now inp.isSome inp
    (by rw [h3, hmode]) (by rw [h4]; exact hfc0)
  rw [h1, h2] at main
  rw [hstep]
  refine ⟨main.1, main.2.1, fun hT hnone => ?_⟩
  have hav : inp.isSome = false := by rw [hnone]; rfl
  exact main.2.2 hT hav

/-- A bridge state whose TX queue holds exactly 48 bytes, with XON/XOFF
flow control configured and backpressure not yet engaged. -/
def sioC2Ex : SIOSt :=
  { sioInit with txFIFO := ⟨fifoSize, List.replicate 48 7⟩,
                 cfg := { sioInit.cfg with flwctr := 4 } }

/-- Witness for C2: at length 48 the call engages backpressure. -/
theorem c2_witness : (doSIOStep sioC2Ex 5 none).1.flowControl = true :=
  ((c2_flow_control_hysteresis sioC2Ex 5 none rfl (by decide) (by decide)).1 rfl).mpr
    (by decide)

/-- A bridge state configured for RTS/CTS flow control (`flwctr = 3`)
whose TX queue has just reached the high threshold. -/
def sioRtsEx : SIOSt :=
  { sioInit with txFIFO := ⟨fifoSize, List.replicate 48 0⟩,
                 cfg := { sioInit.cfg with flwctr := 3 } }

/-- C3: evaluation at the failing input.  In RTS/CTS mode (`flwctr = 3`)
engaging backpressure writes the XOFF byte 0x13 to the transport, leaves
the RTS control line (PORTB bit 2) untouched, and overwrites the
configured mode with 4 — because the source compares the flow-control
mode with assignment (`if (cfg->flwctr = 4)`), which is always true.
The claim's mode-selected behaviour (deassert the line, write no byte)
does not occur. -/
theorem c3_flwctr_assignment_bug :
    (doSIOStep sioRtsEx 0 none).1.serialOut = [0x13] ∧
    (doSIOStep sioRtsEx 0 none).1.portB = sioRtsEx.portB ∧
    (doSIOStep sioRtsEx 0 none).1.cfg.flwctr = 4 ∧
    (doSIOStep sioRtsEx 0 none).1.flowControl = true := by
  decide

/-- C8 as stated: three escape characters, EACH arriving within the
guard window of the PREVIOUS one (first preceded by guard silence),
followed by more than a guard time of silence, switch the bridge to
command mode. -/
def ClaimC8 : Prop :=
  ∀ t1 t2 t3 t4 : Nat, 20 < t1 → t1 ≤ t2 → t2 ≤ t3 → t3 ≤ t4 →
    t2 - t1 ≤ 20 → t3 - t2 ≤ 20 → 20 < t4 - t3 →
    (sioRun sioInit [(t1, some 43), (t2, some 43), (t3, some 43), (t4, none)]).mode
      = Mode.command

/-- C8 counterexample: escapes at 100, 115, 130 ms (each within the
20 ms guard of the previous) followed by silence do NOT switch the mode:
the code measures the window of the second and third escape from the
FIRST one (`now - escFirst > _guard`), and 130 - 100 exceeds the guard,
so the third '+' is neither counted nor restarted (escCount sticks at 2). -/
theorem c8_counterexample : ¬ ClaimC8 := by
  intro h
  have := h 100 115 130 160 (by decide) (by decide) (by decide) (by decide)
    (by decide) (by decide) (by decide)
  exact absurd this (by decide)

/-- Intermediate bridge state after the first escape character at `t1`. -/
def c8st1 (t1 : Nat) : SIOSt :=
  { sioInit with escCount := 1, escFirst := t1, lstChar := t1,
                 txFIFO := ⟨fifoSize, [43]⟩, txActive := ON, portB := 6 }

lemma c8_step1 (t1 : Nat) (h : 20 < t1) :
    doSIOStep sioInit t1 (some 43) = (c8st1 t1, true) := by
  simp [doSIOStep, escBlock, plusBlock, dataBlock, dataAccept, dataRelease, dataDrain,
        sioInit, c8st1, FIFO.new, FIFO.len, FIFO.empty, FIFO.inb, FIFO.cap,
        fifoSize, fifoHgh, fifoMed, fifoLow, ON, h, h.le]

/-- Intermediate bridge state after the second escape character at `t2`. -/
def c8st2 (t1 t2 : Nat) : SIOSt :=
  { c8st1 t1 with escCount := 2, lstChar := t2, txFIFO := ⟨fifoSize, [43, 43]⟩ }

lemma c8_step2 (t1 t2 : Nat) (h : t2 - t1 ≤ 20) :
    doSIOStep (c8st1 t1) t2 (some 43) = (c8st2 t1 t2, true) := by
  have hng : ¬(20 < t2 - t1) := not_lt.mpr h
  simp [doSIOStep, escBlock, plusBlock, dataBlock, dataAccept, dataRelease, dataDrain,
        sioInit, c8st1, c8st2, FIFO.new, FIFO.len, FIFO.empty, FIFO.inb, FIFO.cap,
        fifoSize, fifoHgh, fifoMed, fifoLow, ON, hng]

/-- Intermediate bridge state after the third escape character at `t3`. -/
def c8st3 (t1 t2 t3 : Nat) : SIOSt :=
  { c8st2 t1 t2 with escCount := 3, escLast := t3, lstChar := t3,
                     txFIFO := ⟨fifoSize, [43, 43, 43]⟩ }

lemma c8_step3 (t1 t2 t3 : Nat) (h : t3 - t1 ≤ 20) :
    doSIOStep (c8st2 t1 t2) t3 (some 43) = (c8st3 t1 t2 t3, true) := by
  have hng : ¬(20 < t3 - t1) := not_lt.mpr h
  simp [doSIOStep, escBlock, plusBlock, dataBlock, dataAccept, dataRelease, dataDrain,
        sioInit, c8st1, c8st2, c8st3, FIFO.new, FIFO.len, FIFO.empty, FIFO.inb, FIFO.cap,
        fifoSize, fifoHgh, fifoMed, fifoLow, ON, hng]

lemma c8_step4 (t1 t2 t3 t4 : Nat) (h : 20 < t4 - t3) :
    doSIOStep (c8st3 t1 t2 t3) t4 none =
      ({ c8st3 t1 t2 t3 with mode := Mode.command, escCount := 0,
                             serialOut := [13, 10, 79, 75, 13, 10] }, false) := by
  simp [doSIOStep, escBlock, plusBlock, dataBlock, dataAccept, dataRelease, dataDrain,
        sioInit, c8st1, c8st2, c8st3, FIFO.new, FIFO.len, FIFO.empty, FIFO.inb, FIFO.cap,
        fifoSize, fifoHgh, fifoMed, fifoLow, ON, h]

lemma c8_cancel (t1 t2 t3 t4 c : Nat) (h : t4 - t3 ≤ 20)
    (hc : c ≠ 43) (hcr : c ≠ 13) (hlf : c ≠ 10) :
    doSIOStep (c8st3 t1 t2 t3) t4 (some c) =
      ({ c8st3 t1 t2 t3 with escCount := 0, lstChar := t4,
                             txFIFO := ⟨fifoSize, [43, 43, 43, c]⟩ }, true) := by
  have hng : ¬(20 < t4 - t3) := not_lt.mpr h
  simp [doSIOStep, escBlock, plusBlock, dataBlock, dataAccept, dataRelease, dataDrain,
        sioInit, c8st1, c8st2, c8st3, FIFO.new, FIFO.len, FIFO.empty, FIFO.inb, FIFO.cap,
        fifoSize, fifoHgh, fifoMed, fifoLow, ON, hng, hc, hcr, hlf]

/-- C8 amended: three escape characters, the first preceded by guard
silence and the SECOND AND THIRD each arriving within the guard window
of the FIRST, followed by more than a guard time of silence, switch the
bridge from data mode to command mode and write the "\r\nOK\r\n"
acknowledgement; if instead a non-line-ending, non-matching character
arrives within the guard window after the third escape, the candidate
sequence is cancelled (escCount reset to 0) and no mode switch occurs. -/
theorem c8_escape_guard (t1 t2 t3 t4 : Nat)
    (h1 : 20 < t1) (_o12 : t1 ≤ t2) (_o23 : t2 ≤ t3) (_o34 : t3 ≤ t4)
    (h12 : t2 - t1 ≤ 20) (h13 : t3 - t1 ≤ 20) (h34 : 20 < t4 - t3) :
    ((sioRun sioInit [(t1, some 43), (t2, some 43), (t3, some 43), (t4, none)]).mode
        = Mode.command ∧
     (sioRun sioInit [(t1, some 43), (t2, some 43), (t3, some 43), (t4, none)]).serialOut
        = [13, 10, 79, 75, 13, 10]) ∧
    (∀ t4' c : Nat, t3 ≤ t4' → t4' - t3 ≤ 20 → c ≠ 43 → c ≠ 13 → c ≠ 10 →
       (sioRun sioInit [(t1, some 43), (t2, some 43), (t3, some 43), (t4', some c)]).mode
          = Mode.data ∧
       (sioRun sioInit [(t1, some 43), (t2, some 43), (t3, some 43), (t4', some c)]).escCount
          = 0) := by
  constructor
  · have hrun : sioRun sioInit [(t1, some 43), (t2, some 43), (t3, some 43), (t4, none)]
        = { c8st3 t1 t2 t3 with mode := Mode.command, escCount := 0,
                                serialOut := [13, 10, 79, 75, 13, 10] } := by
      simp only [sioRun, List.foldl_cons, List.foldl_nil]
      rw [c8_step1 t1 h1]
      simp only
      rw [c8_step2 t1 t2 h12]
      simp only
      rw [c8_step3 t1 t2 t3 h13]
      simp only
      rw [c8_step4 t1 t2 t3 t4 h34]
    rw [hrun]
    exact ⟨rfl, rfl⟩
  · intro t4' c _ho h4 hc hcr hlf
    have hrun : sioRun sioInit [(t1, some 43), (t2, some 43), (t3, some 43), (t4', some c)]
        = { c8st3 t1 t2 t3 with escCount := 0, lstChar := t4',
                                txFIFO := ⟨fifoSize, [43, 43, 43, c]⟩ } := by
      simp only [sioRun, List.foldl_cons, List.foldl_nil]
      rw [c8_step1 t1 h1]
      simp only
      rw [c8_step2 t1 t2 h12]
      simp only
      rw [c8_step3 t1 t2 t3 h13]
      simp only
      rw [c8_cancel t1 t2 t3 t4' c h4 hc hcr hlf]
    rw [hrun]
    exact ⟨rfl, rfl⟩

/-- Witness for C8 (amended) at escapes 100, 110, 120 ms and silence
checked at 141 ms. -/
theorem c8_witness :
    (sioRun sioInit [(100, some 43), (110, some 43), (120, some 43), (141, none)]).mode
      = Mode.command :=
  ((c8_escape_guard 100 110 120 141 (by decide) (by decide) (by decide) (by decide)
      (by decide) (by decide) (by decide)).1).1

end Bell103
